import Mathlib

/-!
Verification of the asr_server concurrency and resource-management core.

This file gives a shallow embedding, in Lean 4, of the parts of the Go
repository asr_server that the specification's testable properties are
about:

* the VAD instance pool (internal/pool/silero_vad_pool.go, both the
  SileroVADPool and the structurally identical TenVADPool), modelled as a
  labelled transition system over an explicit pool state, at the
  granularity of the atomic operations the Go code performs (channel
  receive/send, compare-and-swap on the InUse flag);
* the per-session lifecycle in internal/session/manager.go: closeSession,
  the sendLoop error path, and handleRecognitionResult, modelled as pure
  state-transition functions;
* the streaming (TEN-VAD) segmentation state machine of
  Manager.processTenVAD, modelled as a pure fold over classified frames
  (the speech/silence flag of each hop is an input, standing for the
  result of the external ProcessAudio call);
* the per-IP rate limiter of internal/middleware (RateLimiter.getLimiter),
  modelled as a pure function over an association-list table together with
  a fresh-allocation counter that stands for Go object identity of
  rate.NewLimiter allocations.

Sample values are modelled as Int (the Go code carries float32 samples;
no control-flow decision in the modelled code depends on a sample's
numeric value, only on buffer lengths and on the externally supplied
speech/silence classification, so the carrier type is irrelevant).
-/

namespace AsrServer

/-! ## Session close lifecycle (internal/session/manager.go) -/

/-- State of one session as far as close/teardown bookkeeping is concerned.
Mirrors the fields of the Go Session struct that closeSession and sendLoop
touch, plus two event counters (poolReturns, connCloses) that record how
many times the pool return and the transport close have been executed. -/
structure SessState where
  closed : Bool
  hasVAD : Bool
  hasConn : Bool
  cancelled : Bool
  sendDoneClosed : Bool
  queueLen : Nat
  sendErrCount : Nat
  poolReturns : Nat
  connCloses : Nat
  deriving Repr, DecidableEq

/-- Manager.closeSession (manager.go lines 592-615): guarded by an atomic
compare-and-swap of the closed flag from 0 to 1.  Only the CAS winner
cancels the context, closes sendDone, drains the send queue, returns the
VAD instance to the pool (if one is leased) and closes the connection.
A loser of the CAS, or a call on an already-closed session, does nothing. -/
def closeSession (s : SessState) : SessState :=
  if s.closed = false then
    { s with
      closed := true
      cancelled := true
      sendDoneClosed := true
      queueLen := 0
      hasVAD := false
      poolReturns := s.poolReturns + (if s.hasVAD then 1 else 0)
      connCloses := s.connCloses + (if s.hasConn then 1 else 0) }
  else
    s

/-- Iterated close attempts.  Concurrent attempts serialize at the atomic
compare-and-swap on the closed flag, whose unique winner runs the body, so
a sequence of attempts faithfully covers every interleaving. -/
def closeSessionIter : Nat → SessState → SessState
  | 0, s => s
  | n + 1, s => closeSessionIter n (closeSession s)

/-- Session.sendLoop, write-error branch (manager.go lines 293-300): on a
transport write error the error counter is incremented; once it exceeds
maxErrors the loop stores 1 into the closed flag directly and exits.
Nothing else happens: no pool return, no context cancel, no transport
close. -/
def sendLoopWriteError (maxErrors : Nat) (s : SessState) : SessState :=
  let s1 := { s with sendErrCount := s.sendErrCount + 1 }
  if maxErrors < s1.sendErrCount then { s1 with closed := true } else s1

/-- Repeated transport write errors, as seen by sendLoop. -/
def sendLoopWriteErrors (maxErrors : Nat) : Nat → SessState → SessState
  | 0, s => s
  | n + 1, s => sendLoopWriteErrors maxErrors n (sendLoopWriteError maxErrors s)

/-- A freshly created session (Manager.CreateSession, manager.go lines
221-237) that has already leased a VAD instance on its first audio chunk. -/
def sessionWithLease : SessState :=
  { closed := false, hasVAD := true, hasConn := true, cancelled := false,
    sendDoneClosed := false, queueLen := 0, sendErrCount := 0,
    poolReturns := 0, connCloses := 0 }

/-! ## Recognition result handling (Manager.handleRecognitionResult) -/

/-- What handleRecognitionResult (manager.go lines 559-590) does with one
completed recognition task. -/
inductive RecogOutcome where
  | noSession
  | sessionClosed
  | queuedFinal
  | droppedFull
  | errorLogged
  | discardedEmpty
  deriving Repr, DecidableEq

/-- Manager.handleRecognitionResult: looks up the session (missing or
closed results are discarded); a nil error with non-empty text is
published as a final message via a non-blocking send (dropped when the
queue is full); a non-nil error is logged; a nil error with empty text
falls through both branches and nothing at all happens. -/
def handleRecognitionResult (sessionExists closed' queueFree : Bool)
    (result : String) (isErr : Bool) : RecogOutcome :=
  if sessionExists = false then .noSession
  else if closed' = true then .sessionClosed
  else if isErr = false ∧ 0 < result.length then
    (if queueFree then .queuedFinal else .droppedFull)
  else if isErr = true then .errorLogged
  else .discardedEmpty

/-- Whether an outcome publishes a message to the session's outbound queue. -/
def publishesFinal : RecogOutcome → Bool
  | .queuedFinal => true
  | _ => false

/-- Whether an outcome is treated as a recognition error (logged as one). -/
def treatedAsError : RecogOutcome → Bool
  | .errorLogged => true
  | _ => false

/-! ## Per-IP rate limiter (internal/middleware, RateLimiter.getLimiter) -/

/-- Static limiter configuration: the hard cardinality cap
(MaxLimitersPerInstance), the configured rate and the burst size. -/
structure RLConfig where
  cap : Nat
  r : Nat
  b : Nat
  deriving Repr, DecidableEq

/-- Mutable limiter state: the per-IP table (key plus the identity of the
rate.Limiter object stored for it) and a fresh-allocation counter standing
for Go heap identity: every rate.NewLimiter call yields a new, distinct
object, modelled by handing out the counter value and bumping it. -/
structure RLState where
  table : List (String × Nat)
  nextId : Nat
  deriving Repr, DecidableEq

/-- The bucket reference a lookup returns: which object, and with which
rate/burst parameters it was built. -/
structure BucketRef where
  bucketId : Nat
  rateLim : Nat
  burst : Nat
  deriving Repr, DecidableEq

/-- RateLimiter.getLimiter (middleware rate limiter, lines 52-87): a hit
returns the stored limiter; on a miss, if the table has reached
MaxLimitersPerInstance the table is left untouched and a brand-new
restrictive limiter rate.NewLimiter(1, 1) is returned; otherwise a new
limiter with the configured rate and burst is created and inserted.
The read-locked fast path and the double-checked write-locked slow path
collapse to a single atomic lookup-or-insert in this sequential model,
which is exactly what the lock discipline guarantees. -/
def getLimiter (cfg : RLConfig) (s : RLState) (ip : String) :
    RLState × BucketRef :=
  match s.table.find? (fun e => e.1 = ip) with
  | some e => (s, ⟨e.2, cfg.r, cfg.b⟩)
  | none =>
    if cfg.cap ≤ s.table.length then
      ({ s with nextId := s.nextId + 1 }, ⟨s.nextId, 1, 1⟩)
    else
      ({ table := s.table ++ [(ip, s.nextId)], nextId := s.nextId + 1 },
        ⟨s.nextId, cfg.r, cfg.b⟩)

/-- A sequence of admission lookups applied to the limiter state. -/
def runLookups (cfg : RLConfig) : List String → RLState → RLState
  | [], s => s
  | ip :: rest, s => runLookups cfg rest (getLimiter cfg s ip).1

/-! ## Streaming (TEN-VAD) segmentation (Manager.processTenVAD) -/

/-- Per-session segmentation state, the three Session fields the streaming
strategy uses (manager.go lines 41-43). -/
structure TenState where
  isInSpeech : Bool
  currentSegment : List Int
  silenceFrameCount : Nat
  deriving Repr, DecidableEq

/-- Segmentation parameters: cfg.VAD.TenVAD.HopSize / MinSpeechFrames /
MaxSilenceFrames plus the MaxSegmentSamples constant (960000 in the code). -/
structure TenCfg where
  hopSize : Nat
  minSpeechFrames : Nat
  maxSilenceFrames : Nat
  maxSegmentSamples : Nat
  deriving Repr, DecidableEq

/-- Segmentation state at session creation: CreateSession initializes
isInSpeech to false, currentSegment to nil and silenceFrameCount to 0. -/
def tenInit : TenState := ⟨false, [], 0⟩

/-- One iteration of the frame loop in Manager.processTenVAD (manager.go
lines 478-548).  The frame's samples are given as a list; the speech flag
is the result of the external ProcessAudio classification for this hop.
Returns the updated session state and the segments submitted for
recognition by this iteration, in submission order.

Speech flag set: on an Idle-to-speech edge the accumulator and the silence
counter are reset; the frame's samples are appended and the silence
counter is cleared; if the accumulator has reached MaxSegmentSamples the
segment is force-submitted and the accumulator cleared (remaining in
speech).  Speech flag clear: only relevant while in speech, where the
silence counter is incremented and the frame still appended; when the
counter reaches maxSilenceFrames the segment is finalized, submitted only
when its integer frame count (length / hopSize) is at least
minSpeechFrames, and the state returns to Idle. -/
def processFrame (cfg : TenCfg) (st : TenState) (frame : List Int)
    (flag : Bool) : TenState × List (List Int) :=
  if flag then
    let st1 := if st.isInSpeech then st else ⟨true, [], 0⟩
    let st2 : TenState :=
      ⟨st1.isInSpeech, st1.currentSegment ++ frame, 0⟩
    if cfg.maxSegmentSamples ≤ st2.currentSegment.length then
      (⟨st2.isInSpeech, [], st2.silenceFrameCount⟩, [st2.currentSegment])
    else
      (st2, [])
  else
    if st.isInSpeech then
      let st1 : TenState :=
        ⟨st.isInSpeech, st.currentSegment ++ frame, st.silenceFrameCount + 1⟩
      if cfg.maxSilenceFrames ≤ st1.silenceFrameCount then
        (⟨false, [], 0⟩,
          if cfg.minSpeechFrames ≤ st1.currentSegment.length / cfg.hopSize then
            [st1.currentSegment]
          else
            [])
      else
        (st1, [])
    else
      (st, [])

/-- The whole frame loop over a sequence of classified hops: threads the
state and concatenates the submitted segments in order. -/
def processFrames (cfg : TenCfg) (st : TenState) :
    List (List Int × Bool) → TenState × List (List Int)
  | [] => (st, [])
  | fb :: rest =>
    let r1 := processFrame cfg st fb.1 fb.2
    let r2 := processFrames cfg r1.1 rest
    (r2.1, r1.2 ++ r2.2)

/-- A hop's worth of samples (the sample values never influence the
modelled control flow). -/
def hopFrame (cfg : TenCfg) : List Int := List.replicate cfg.hopSize 0

/-- S speech-classified hops followed by K silence-classified hops, each a
full hop of the configured size. -/
def speechThenSilence (cfg : TenCfg) (S K : Nat) : List (List Int × Bool) :=
  List.replicate S (hopFrame cfg, true) ++ List.replicate K (hopFrame cfg, false)

/-! ## Pool Get retry chain (SileroVADPool.Get / TenVADPool.Get) -/

/-- What the scheduler presents to one iteration of Get: the select either
receives an instance from the available channel (whose InUse flag then
makes the compare-and-swap fail or succeed), fires the 100ms timeout, or
observes pool shutdown. -/
inductive GetEvent where
  | popBusy
  | popFree
  | timedOut
  | shutdown
  deriving Repr, DecidableEq

/-- Number of retries Get performs under a given schedule of events.  In
the code (silero_vad_pool.go line 213, identically TenVADPool at line 531)
a failed compare-and-swap requeues the instance and then evaluates
p.Get() recursively; every consecutive popBusy event therefore costs one
further recursive call, and any other event ends the chain. -/
def getRetries : List GetEvent → Nat
  | .popBusy :: rest => getRetries rest + 1
  | _ => 0

/-! ## Temporary instances and Put (SileroVADPool.createNewInstance / Put) -/

/-- Pool bookkeeping visible to createNewInstance and Put: the tracked
instance ids (the instances slice), the contents of the available channel
and its capacity (the configured pool size). -/
structure SimplePool where
  poolSize : Nat
  instances : List Int
  available : List Int
  deriving Repr, DecidableEq

/-- An instance handle as Put sees it: its id and its InUse flag.
Tracked instances carry their nonnegative slot id; temporary instances
are created with id -1. -/
structure VADInst where
  id : Int
  inUse : Bool
  deriving Repr, DecidableEq

/-- SileroVADPool.createNewInstance (lines 258-276): builds a fresh
instance with InUse already 1 and id -1, bumps the counters, and returns
it without touching the instances slice or the available channel. -/
def createNewInstance (p : SimplePool) : SimplePool × VADInst :=
  (p, { id := -1, inUse := true })

/-- What one Put call did with the instance. -/
inductive PutOutcome where
  | returnedToQueue
  | destroyed
  | notInUse
  deriving Repr, DecidableEq

/-- SileroVADPool.Put (lines 225-255): compare-and-swap InUse 1 to 0; on
success reset the instance and push it onto the available channel with a
non-blocking send, destroying it only when the channel is full; on CAS
failure (flag was already 0) do nothing.  The code never looks at the id,
so a temporary instance takes exactly the same path as a tracked one. -/
def putInstance (p : SimplePool) (inst : VADInst) : SimplePool × PutOutcome :=
  if inst.inUse then
    if p.available.length < p.poolSize then
      ({ p with available := p.available ++ [inst.id] }, .returnedToQueue)
    else
      (p, .destroyed)
  else
    (p, .notInUse)

/-! ## The pool as a labelled transition system (Get/Put interleavings)

Concurrent Get and Put calls on a SileroVADPool (or the structurally
identical TenVADPool) interact through exactly three shared objects: the
available channel (whose receive and non-blocking send are atomic), the
per-instance InUse flag (accessed only through atomic loads and
compare-and-swaps), and fresh temporary instances.  Each constructor below
is one such atomic action; an interleaving of any number of concurrent
Get/Put calls is a path in this transition system.  Instances are named by
Nat ids: the tracked instances created by Initialize are 0..N-1, temporary
instances receive fresh ids from the nextTemp counter (the Go code gives
them id -1 and distinguishes them by heap identity; fresh Nat ids model
that identity).  Put is invoked by a session on the instance it obtained
from Get (session.VADInstance in manager.go), which the putCas constructor
reflects by requiring membership in held. -/

/-- Global pool state: the InUse flag of every instance id, the available
channel's contents, instances popped by a Get but not yet CAS-tested
(pendingGet), instances handed out and currently leased (held), instances
whose Put already flipped the flag but has not yet pushed or destroyed
them (returning), and the fresh-id counter for temporaries. -/
structure PoolState where
  inUse : Nat → Bool
  available : List Nat
  pendingGet : List Nat
  held : List Nat
  returning : List Nat
  nextTemp : Nat

/-- Labels naming the atomic actions of Get and Put. -/
inductive PLabel where
  | pop (i : Nat)
  | handout (i : Nat)
  | requeue (i : Nat)
  | temp (i : Nat)
  | putCas (i : Nat)
  | putPush (i : Nat)
  | putDestroy (i : Nat)
  deriving Repr, DecidableEq

/-- One atomic action of a Get or Put call on a pool whose available
channel has capacity N (silero_vad_pool.go lines 194-276):

* pop: Get's select receives the head of the available channel;
* handout: the compare-and-swap of InUse from 0 to 1 succeeds and Get
  returns this instance to its caller (line 200);
* requeue: the compare-and-swap fails; the instance is pushed back with a
  non-blocking send (dropped silently when the channel is full, lines
  209-212) and Get retries;
* temp: the 100ms timeout fires and createNewInstance hands out a fresh
  temporary instance, constructed with InUse already 1 and never added to
  the instances slice (lines 258-276);
* putCas: Put's compare-and-swap of InUse from 1 to 0 succeeds on a held
  instance (line 233);
* putPush: Put's non-blocking send returns the instance to the available
  channel when it has room (line 244);
* putDestroy: the channel is full, so Put destroys the instance instead
  (lines 247-251). -/
inductive PStep (N : Nat) : PoolState → PLabel → PoolState → Prop where
  | pop (s : PoolState) (i : Nat) (rest : List Nat)
      (h : s.available = i :: rest) :
      PStep N s (.pop i)
        { s with available := rest, pendingGet := i :: s.pendingGet }
  | handout (s : PoolState) (i : Nat)
      (hmem : i ∈ s.pendingGet) (hflag : s.inUse i = false) :
      PStep N s (.handout i)
        { s with inUse := fun j => if j = i then true else s.inUse j,
                 pendingGet := s.pendingGet.erase i,
                 held := i :: s.held }
  | requeue (s : PoolState) (i : Nat)
      (hmem : i ∈ s.pendingGet) (hflag : s.inUse i = true) :
      PStep N s (.requeue i)
        { s with pendingGet := s.pendingGet.erase i,
                 available :=
                   if s.available.length < N then s.available ++ [i]
                   else s.available }
  | temp (s : PoolState) :
      PStep N s (.temp s.nextTemp)
        { s with inUse := fun j => if j = s.nextTemp then true else s.inUse j,
                 held := s.nextTemp :: s.held,
                 nextTemp := s.nextTemp + 1 }
  | putCas (s : PoolState) (i : Nat)
      (hmem : i ∈ s.held) (hflag : s.inUse i = true) :
      PStep N s (.putCas i)
        { s with inUse := fun j => if j = i then false else s.inUse j,
                 held := s.held.erase i,
                 returning := i :: s.returning }
  | putPush (s : PoolState) (i : Nat)
      (hmem : i ∈ s.returning) (hroom : s.available.length < N) :
      PStep N s (.putPush i)
        { s with returning := s.returning.erase i,
                 available := s.available ++ [i] }
  | putDestroy (s : PoolState) (i : Nat)
      (hmem : i ∈ s.returning) (hfull : ¬ s.available.length < N) :
      PStep N s (.putDestroy i)
        { s with returning := s.returning.erase i }

/-- The pool right after Initialize succeeded in full: instances 0..N-1
all have InUse 0 and sit in the available channel; temporaries will be
numbered from N up. -/
def initPool (N : Nat) : PoolState :=
  { inUse := fun _ => false, available := List.range N, pendingGet := [],
    held := [], returning := [], nextTemp := N }

/-- States reachable from the freshly initialized pool by interleaved
Get/Put actions. -/
inductive PoolReachable (N : Nat) : PoolState → Prop where
  | init : PoolReachable N (initPool N)
  | step {s : PoolState} {l : PLabel} {s' : PoolState} :
      PoolReachable N s → PStep N s l s' → PoolReachable N s'

/-- Every place an instance reference can live, as one multiset. -/
def occm (s : PoolState) : Multiset Nat :=
  (s.available : Multiset Nat) + (s.pendingGet : Multiset Nat)
    + (s.held : Multiset Nat) + (s.returning : Multiset Nat)

/-- The pool invariant maintained by every atomic action: every instance
reference lives in at most one place at a time, the InUse flag is 1
exactly for the currently held instances, and every reference is an
already-allocated id. -/
def PoolInv (s : PoolState) : Prop :=
  (occm s).Nodup ∧ (∀ i, s.inUse i = true ↔ i ∈ s.held)
    ∧ (∀ i ∈ occm s, i < s.nextTemp)

/-! ## Concrete fixtures used by witnesses and counterexamples -/

/-- A pool of size 1 right after its Get popped instance 0 from the
available channel but before the compare-and-swap. -/
def poolS1 : PoolState :=
  { inUse := fun _ => false, available := [], pendingGet := [0],
    held := [], returning := [], nextTemp := 1 }

/-- The same pool after the compare-and-swap succeeded and instance 0 was
handed out. -/
def poolS2 : PoolState :=
  { inUse := fun j => if j = 0 then true else false, available := [],
    pendingGet := [], held := [0], returning := [], nextTemp := 1 }

/-- The segmentation configuration of the spec's acceptance scenario:
hop 512 samples, minSpeechFrames 2, maxSilenceFrames 2, together with the
MaxSegmentSamples constant from manager.go. -/
def scenCfg : TenCfg :=
  { hopSize := 512, minSpeechFrames := 2, maxSilenceFrames := 2,
    maxSegmentSamples := 960000 }

/-- A small instance of the same configuration shape (hop 1 keeps the
concrete traces tiny). -/
def cexCfg : TenCfg :=
  { hopSize := 1, minSpeechFrames := 2, maxSilenceFrames := 2,
    maxSegmentSamples := 100 }

/-- One speech hop followed by two silence hops under cexCfg: S = 1 is
below minSpeechFrames = 2. -/
def cexFrames : List (List Int × Bool) := speechThenSilence cexCfg 1 2

/-- A pool of size 2 with both tracked instances currently leased, so the
available channel is empty (the situation in which Get times out and
builds a temporary instance). -/
def overflowPool : SimplePool :=
  { poolSize := 2, instances := [0, 1], available := [] }

/-- A limiter whose table (hard cap 1) is already at its cap. -/
def rlCfgAtCap : RLConfig := { cap := 1, r := 100, b := 50 }

/-- The limiter state at the cap: one entry, next fresh object id 1. -/
def rlStateAtCap : RLState := { table := [("a", 0)], nextId := 1 }

/-! # Theorems -/

/-! ## Session close: idempotence and the send-error leak -/

theorem closeSession_of_closed (s : SessState) (h : s.closed = true) :
    closeSession s = s := by
  simp [closeSession, h]

theorem closeSessionIter_of_closed (n : Nat) (s : SessState)
    (h : s.closed = true) : closeSessionIter n s = s := by
  induction n with
  | zero => rfl
  | succ m ih => simp [closeSessionIter, closeSession_of_closed s h, ih]

/-- C7: closing a session is idempotent.  Any number n of close attempts
(concurrent attempts serialize at the atomic compare-and-swap on the
closed flag, whose unique winner runs the teardown body) on an open
session holding a leased pool instance and a live transport performs
exactly one pool return and exactly one transport close. -/
theorem closeSession_idempotent (s : SessState) (n : Nat)
    (hopen : s.closed = false) (hvad : s.hasVAD = true)
    (hconn : s.hasConn = true) (hn : 1 ≤ n) :
    (closeSessionIter n s).poolReturns = s.poolReturns + 1 ∧
      (closeSessionIter n s).connCloses = s.connCloses + 1 := by
  obtain ⟨m, rfl⟩ : ∃ m, n = m + 1 := ⟨n - 1, by omega⟩
  have h1 : closeSession s =
      { s with closed := true, cancelled := true, sendDoneClosed := true,
               queueLen := 0, hasVAD := false,
               poolReturns := s.poolReturns + 1,
               connCloses := s.connCloses + 1 } := by
    simp [closeSession, hopen, hvad, hconn]
  have h2 : closeSessionIter (m + 1) s = closeSession s := by
    simp only [closeSessionIter]
    exact closeSessionIter_of_closed m _ (by rw [h1])
  rw [h2, h1]
  exact ⟨rfl, rfl⟩

/-- Witness for C7 at a concrete session and two close attempts. -/
theorem closeSession_idempotent_witness :
    (closeSessionIter 2 sessionWithLease).poolReturns =
        sessionWithLease.poolReturns + 1 ∧
      (closeSessionIter 2 sessionWithLease).connCloses =
        sessionWithLease.connCloses + 1 :=
  closeSession_idempotent sessionWithLease 2 rfl rfl rfl (by decide)

/-- C2: the conservation property fails on the send-error path.  With the
default MaxSendErrors = 10, the 11th consecutive transport write error
makes sendLoop store 1 into the closed flag directly and exit, without
returning the leased instance; the subsequent closeSession (invoked by
RemoveSession or the idle reaper) then loses its compare-and-swap and
performs neither the pool return nor the transport close, so the lease is
never matched by a return or destruction. -/
theorem sendErrors_forceClose_leaks_lease :
    (sendLoopWriteErrors 10 11 sessionWithLease).closed = true ∧
      (closeSession (sendLoopWriteErrors 10 11 sessionWithLease)).poolReturns
          = 0 ∧
      (closeSession (sendLoopWriteErrors 10 11 sessionWithLease)).hasVAD
          = true ∧
      (closeSession (sendLoopWriteErrors 10 11 sessionWithLease)).connCloses
          = 0 := by
  decide

/-! ## Recognition result handling -/

/-- C10: a recognition task that completes successfully with empty text
publishes nothing to the session's outbound queue and is not treated as an
error; only a successful result with non-empty text produces a final
message. -/
theorem emptyResult_publishes_nothing (qf : Bool) (r : String) :
    publishesFinal (handleRecognitionResult true false qf "" false) = false ∧
      treatedAsError (handleRecognitionResult true false qf "" false)
          = false ∧
      handleRecognitionResult true false qf "" false
          = RecogOutcome.discardedEmpty ∧
      (publishesFinal (handleRecognitionResult true false true r false) = true
        ↔ 0 < r.length) := by
  by_cases h : 0 < r.length <;>
    simp [handleRecognitionResult, publishesFinal, treatedAsError, h]

/-! ## Rate limiter: cardinality bound and the overflow bucket -/

/-- C9: the per-client limiter table never exceeds the hard cap.  For any
sequence of admission lookups from arbitrarily many distinct client keys,
if the table starts within the cap it stays within the cap: at the cap no
new entry is ever inserted. -/
theorem limiter_table_bounded (cfg : RLConfig) (s : RLState)
    (ips : List String) (h : s.table.length ≤ cfg.cap) :
    (runLookups cfg ips s).table.length ≤ cfg.cap := by
  induction ips generalizing s with
  | nil => exact h
  | cons ip rest ih =>
    have hstep : (getLimiter cfg s ip).1.table.length ≤ cfg.cap := by
      unfold getLimiter
      cases hfind : s.table.find? (fun e => e.1 = ip) with
      | some e => simpa using h
      | none =>
        by_cases hcap : cfg.cap ≤ s.table.length
        · simpa [hcap] using h
        · simp only [hcap, if_false]
          simp [List.length_append]
          omega
    exact ih _ hstep

/-- Witness for C9: three fresh keys against a cap of 1 never grow the
table past the cap. -/
theorem limiter_table_bounded_witness :
    (runLookups rlCfgAtCap ["x", "y", "z"] ⟨[], 0⟩).table.length
      ≤ rlCfgAtCap.cap :=
  limiter_table_bounded rlCfgAtCap ⟨[], 0⟩ ["x", "y", "z"] (by decide)

/-- C8 counterexample: overflow clients do not share one bucket object.
With the table at its cap, two overflow lookups receive two distinct
freshly allocated restrictive limiters (the code evaluates
rate.NewLimiter(1, 1) anew on every at-cap miss), while the table itself
does not grow. -/
theorem overflow_bucket_not_shared :
    (getLimiter rlCfgAtCap rlStateAtCap "b").2.bucketId ≠
        (getLimiter rlCfgAtCap
          (getLimiter rlCfgAtCap rlStateAtCap "b").1 "c").2.bucketId ∧
      (getLimiter rlCfgAtCap
          (getLimiter rlCfgAtCap rlStateAtCap "b").1 "c").1.table
        = rlStateAtCap.table := by
  decide

/-- C8 (amended): when the table is at the hard cap, a lookup for a new
client key leaves the table untouched and returns a maximally restrictive
bucket (rate 1, burst 1) that is freshly allocated per call rather than
shared between overflow clients. -/
theorem overflow_lookup_fresh_restrictive (cfg : RLConfig) (s : RLState)
    (ip : String) (hcap : cfg.cap ≤ s.table.length)
    (hmiss : s.table.find? (fun e => e.1 = ip) = none) :
    (getLimiter cfg s ip).1.table = s.table ∧
      (getLimiter cfg s ip).2.rateLim = 1 ∧
      (getLimiter cfg s ip).2.burst = 1 ∧
      (getLimiter cfg s ip).2.bucketId = s.nextId ∧
      (getLimiter cfg s ip).1.nextId = s.nextId + 1 := by
  simp [getLimiter, hmiss, hcap]

/-- Witness for the amended C8 at the concrete at-cap state. -/
theorem overflow_lookup_fresh_restrictive_witness :
    (getLimiter rlCfgAtCap rlStateAtCap "b").1.table = rlStateAtCap.table ∧
      (getLimiter rlCfgAtCap rlStateAtCap "b").2.rateLim = 1 ∧
      (getLimiter rlCfgAtCap rlStateAtCap "b").2.burst = 1 ∧
      (getLimiter rlCfgAtCap rlStateAtCap "b").2.bucketId
        = rlStateAtCap.nextId ∧
      (getLimiter rlCfgAtCap rlStateAtCap "b").1.nextId
        = rlStateAtCap.nextId + 1 :=
  overflow_lookup_fresh_restrictive rlCfgAtCap rlStateAtCap "b" (by decide)
    (by decide)

/-! ## Get retry chain -/

theorem getRetries_replicate (n : Nat) :
    getRetries (List.replicate n GetEvent.popBusy) = n := by
  induction n with
  | zero => rfl
  | succ m ih => simp [List.replicate_succ, getRetries, ih]

/-- C3 counterexample: no fixed retry ceiling bounds the number of Get
retries.  The compare-and-swap-failure branch evaluates p.Get()
recursively, so a schedule of n consecutive busy pops produces n retries,
refuting the existence of any fixed bound. -/
theorem get_retries_unbounded :
    ¬ ∃ C : Nat, ∀ sched : List GetEvent, getRetries sched ≤ C := by
  rintro ⟨C, h⟩
  have h1 := h (List.replicate (C + 1) GetEvent.popBusy)
  rw [getRetries_replicate] at h1
  omega

/-- C3 (amended): on a compare-and-swap failure Get requeues the instance
and retries via unbounded recursion; for every candidate ceiling C there
is a schedule with more than C retries, so termination rests on the
scheduler eventually granting a successful pop, a timeout or shutdown,
not on a retry ceiling. -/
theorem get_retry_no_ceiling (C : Nat) :
    C < getRetries (List.replicate (C + 1) GetEvent.popBusy) := by
  rw [getRetries_replicate]
  omega

/-! ## Temporary instances: tracked set and Put behaviour -/

/-- C4 counterexample: a temporary instance returned while the available
channel has room is pushed back onto the channel for reuse, not destroyed.
With pool size 2 and an empty available channel, Put on the freshly
created temporary (id -1) enqueues it. -/
theorem temp_instance_recycled :
    (putInstance overflowPool (createNewInstance overflowPool).2).2
        = PutOutcome.returnedToQueue ∧
      (putInstance overflowPool (createNewInstance overflowPool).2).1.available
        = [-1] := by
  decide

/-- C4 (amended): a temporary overflow instance is never added to the
pool's tracked instances slice, and on return via Put it is destroyed
exactly when the available channel is full; otherwise it is pushed back
onto the channel and can be reused. -/
theorem temp_instance_untracked (p : SimplePool) :
    (createNewInstance p).1.instances = p.instances ∧
      (createNewInstance p).2.id = -1 ∧
      (createNewInstance p).2.inUse = true ∧
      (putInstance p (createNewInstance p).2).2 =
        (if p.available.length < p.poolSize then PutOutcome.returnedToQueue
         else PutOutcome.destroyed) := by
  refine ⟨rfl, rfl, rfl, ?_⟩
  by_cases h : p.available.length < p.poolSize <;>
    simp [putInstance, createNewInstance, h]

/-! ## Segmentation run lemmas -/

theorem processFrames_append (cfg : TenCfg) (st : TenState)
    (l1 l2 : List (List Int × Bool)) :
    processFrames cfg st (l1 ++ l2) =
      ((processFrames cfg (processFrames cfg st l1).1 l2).1,
        (processFrames cfg st l1).2
          ++ (processFrames cfg (processFrames cfg st l1).1 l2).2) := by
  induction l1 generalizing st with
  | nil => simp [processFrames]
  | cons fb rest ih => simp [processFrames, ih]

theorem hopFrame_merge (cfg : TenCfg) (seg : List Int) (m : Nat) :
    (seg ++ hopFrame cfg) ++ List.replicate (m * cfg.hopSize) (0 : Int)
      = seg ++ List.replicate ((m + 1) * cfg.hopSize) 0 := by
  rw [List.append_assoc]
  congr 1
  simp only [hopFrame]
  rw [← List.replicate_add]
  congr 1
  ring

theorem speech_hops (cfg : TenCfg) (S : Nat) :
    ∀ seg : List Int,
      seg.length + S * cfg.hopSize < cfg.maxSegmentSamples →
      processFrames cfg ⟨true, seg, 0⟩
          (List.replicate S (hopFrame cfg, true)) =
        (⟨true, seg ++ List.replicate (S * cfg.hopSize) 0, 0⟩, []) := by
  induction S with
  | zero => intro seg _; simp [processFrames]
  | succ m ih =>
    intro seg hceil
    have hle : cfg.hopSize + m * cfg.hopSize = (m + 1) * cfg.hopSize := by
      ring
    have hfr : processFrame cfg ⟨true, seg, 0⟩ (hopFrame cfg) true =
        (⟨true, seg ++ hopFrame cfg, 0⟩, []) := by
      have hno : ¬ cfg.maxSegmentSamples ≤ (seg ++ hopFrame cfg).length := by
        simp only [List.length_append, hopFrame, List.length_replicate]
        omega
      simp [processFrame, hno]
      simp only [hopFrame, List.length_replicate]
      omega
    have hrec := ih (seg ++ hopFrame cfg)
      (by
        simp only [List.length_append, hopFrame, List.length_replicate]
        omega)
    simp only [List.replicate_succ, processFrames, hfr, hrec,
      hopFrame_merge, List.nil_append, List.append_nil]

theorem silence_hops_below (cfg : TenCfg) (j : Nat) :
    ∀ (c : Nat) (seg : List Int),
      c + j < cfg.maxSilenceFrames →
      processFrames cfg ⟨true, seg, c⟩
          (List.replicate j (hopFrame cfg, false)) =
        (⟨true, seg ++ List.replicate (j * cfg.hopSize) 0, c + j⟩, []) := by
  induction j with
  | zero => intro c seg _; simp [processFrames]
  | succ m ih =>
    intro c seg hlt
    have hfr : processFrame cfg ⟨true, seg, c⟩ (hopFrame cfg) false =
        (⟨true, seg ++ hopFrame cfg, c + 1⟩, []) := by
      have hno : ¬ cfg.maxSilenceFrames ≤ c + 1 := by omega
      simp [processFrame, hno]
    have hrec := ih (c + 1) (seg ++ hopFrame cfg) (by omega)
    have hcnt : c + 1 + m = c + (m + 1) := by omega
    simp only [List.replicate_succ, processFrames, hfr, hrec,
      hopFrame_merge, hcnt, List.nil_append, List.append_nil]

theorem silence_hops_idle (cfg : TenCfg) (m : Nat) :
    processFrames cfg ⟨false, [], 0⟩
        (List.replicate m (hopFrame cfg, false)) = (⟨false, [], 0⟩, []) := by
  induction m with
  | zero => simp [processFrames]
  | succ k ih => simp [List.replicate_succ, processFrames, processFrame, ih]

theorem processFrames_singleton (cfg : TenCfg) (st : TenState)
    (fb : List Int × Bool) :
    processFrames cfg st [fb] =
      ((processFrame cfg st fb.1 fb.2).1, (processFrame cfg st fb.1 fb.2).2) := by
  simp [processFrames]

theorem silence_final_hop (cfg : TenCfg) (seg : List Int) (c : Nat)
    (hc : cfg.maxSilenceFrames ≤ c + 1) :
    processFrame cfg ⟨true, seg, c⟩ (hopFrame cfg) false =
      (⟨false, [], 0⟩,
        if cfg.minSpeechFrames ≤ (seg ++ hopFrame cfg).length / cfg.hopSize
        then [seg ++ hopFrame cfg]
        else []) := by
  simp [processFrame, hc]

/-- Complete run of the streaming segmentation machine on S speech hops
followed by K silence hops, from the Idle initial state: provided the
speech accumulation stays below the MaxSegmentSamples ceiling, the state
returns to Idle and exactly one segment of (S + maxSilenceFrames) hops is
submitted when that count reaches minSpeechFrames (the trailing silence
hops are appended to the accumulator before the frame count is checked),
and nothing is submitted otherwise. -/
theorem speechThenSilence_run (cfg : TenCfg) (S K : Nat)
    (hhop : 1 ≤ cfg.hopSize) (hS : 1 ≤ S)
    (hsil : 1 ≤ cfg.maxSilenceFrames) (hK : cfg.maxSilenceFrames ≤ K)
    (hceil : S * cfg.hopSize < cfg.maxSegmentSamples) :
    processFrames cfg tenInit (speechThenSilence cfg S K) =
      (tenInit,
        if cfg.minSpeechFrames ≤ S + cfg.maxSilenceFrames then
          [List.replicate ((S + cfg.maxSilenceFrames) * cfg.hopSize) 0]
        else []) := by
  obtain ⟨m, rfl⟩ : ∃ m, S = m + 1 := ⟨S - 1, by omega⟩
  obtain ⟨t, hts⟩ : ∃ t, cfg.maxSilenceFrames = t + 1 :=
    ⟨cfg.maxSilenceFrames - 1, by omega⟩
  -- Phase 1: the speech hops, entering speech on the first one.
  have hmerge : cfg.hopSize + m * cfg.hopSize = (m + 1) * cfg.hopSize := by
    ring
  have hhople : cfg.hopSize ≤ (m + 1) * cfg.hopSize :=
    Nat.le_mul_of_pos_left _ (by omega)
  have hfirst : processFrame cfg tenInit (hopFrame cfg) true =
      (⟨true, hopFrame cfg, 0⟩, []) := by
    have hno : ¬ cfg.maxSegmentSamples
        ≤ (([] : List Int) ++ hopFrame cfg).length := by
      simp only [List.nil_append, hopFrame, List.length_replicate]
      omega
    simp [processFrame, tenInit, hno]
    simp only [hopFrame, List.length_replicate]
    omega
  have hspeech : processFrames cfg tenInit
      (List.replicate (m + 1) (hopFrame cfg, true)) =
      (⟨true, List.replicate ((m + 1) * cfg.hopSize) 0, 0⟩, []) := by
    have hrec := speech_hops cfg m (hopFrame cfg)
      (by simp only [hopFrame, List.length_replicate]; omega)
    have hcat : hopFrame cfg ++ List.replicate (m * cfg.hopSize) (0 : Int)
        = List.replicate ((m + 1) * cfg.hopSize) 0 := by
      simp only [hopFrame]
      rw [← List.replicate_add, hmerge]
    simp only [List.replicate_succ, processFrames, hfirst, hrec, hcat,
      List.nil_append, List.append_nil]
  -- Phase 2: the silence hops, finalizing at the maxSilenceFrames-th.
  have hsplitK : (List.replicate t (hopFrame cfg, false)
        ++ [(hopFrame cfg, false)])
        ++ List.replicate (K - (t + 1)) (hopFrame cfg, false)
      = List.replicate K (hopFrame cfg, false) := by
    rw [← List.replicate_succ', ← List.replicate_add]
    congr 1
    omega
  have hbelow := silence_hops_below cfg t 0
    (List.replicate ((m + 1) * cfg.hopSize) 0) (by omega)
  have hfin := silence_final_hop cfg
    (List.replicate ((m + 1) * cfg.hopSize) 0
      ++ List.replicate (t * cfg.hopSize) 0) (0 + t) (by omega)
  have hseg : (List.replicate ((m + 1) * cfg.hopSize) 0
        ++ List.replicate (t * cfg.hopSize) 0) ++ hopFrame cfg
      = List.replicate (((m + 1) + (t + 1)) * cfg.hopSize) (0 : Int) := by
    simp only [hopFrame, List.append_assoc]
    rw [← List.replicate_add, ← List.replicate_add]
    congr 1
    ring
  have hdiv : (((m + 1) + (t + 1)) * cfg.hopSize) / cfg.hopSize
      = (m + 1) + (t + 1) := Nat.mul_div_cancel _ (by omega)
  rw [hseg] at hfin
  simp only [List.length_replicate, hdiv] at hfin
  -- Assemble the phases.
  simp only [speechThenSilence, hts]
  rw [processFrames_append, hspeech]
  rw [← hsplitK, processFrames_append, processFrames_append, hbelow]
  rw [processFrames_singleton]
  simp only [hfin]
  rw [silence_hops_idle]
  simp only [List.append_nil, List.nil_append, tenInit]

/-- C5 counterexample: S below minSpeechFrames still emits a segment.
With hop 1, minSpeechFrames 2, maxSilenceFrames 2, one speech hop followed
by two silence hops (S = 1 < 2) emits one segment, because the two
trailing silence hops are appended to the accumulator before its frame
count is compared against minSpeechFrames, giving frame count 3. -/
theorem short_speech_still_emits :
    (processFrames cexCfg tenInit cexFrames).2.length = 1 ∧
      (1 : Nat) < cexCfg.minSpeechFrames := by
  decide

/-- C5 (amended): after S consecutive speech hops and K of at least
maxSilenceFrames silence hops (speech accumulation below the
MaxSegmentSamples ceiling), exactly one segment is emitted when
S + maxSilenceFrames reaches minSpeechFrames and none otherwise: the
trailing silence hops count toward the minimum frame check, so in
particular S at least minSpeechFrames always emits exactly one segment,
but S below minSpeechFrames can emit one as well. -/
theorem segmentation_emission (cfg : TenCfg) (S K : Nat)
    (hhop : 1 ≤ cfg.hopSize) (hS : 1 ≤ S)
    (hsil : 1 ≤ cfg.maxSilenceFrames) (hK : cfg.maxSilenceFrames ≤ K)
    (hceil : S * cfg.hopSize < cfg.maxSegmentSamples) :
    (processFrames cfg tenInit (speechThenSilence cfg S K)).2.length =
      (if cfg.minSpeechFrames ≤ S + cfg.maxSilenceFrames then 1 else 0) := by
  rw [speechThenSilence_run cfg S K hhop hS hsil hK hceil]
  by_cases hmin : cfg.minSpeechFrames ≤ S + cfg.maxSilenceFrames <;>
    simp [hmin]

/-- Witness for the amended C5: three speech hops then two silence hops
under the small configuration emit exactly one segment. -/
theorem segmentation_emission_witness :
    (processFrames cexCfg tenInit (speechThenSilence cexCfg 3 2)).2.length =
      (if cexCfg.minSpeechFrames ≤ 3 + cexCfg.maxSilenceFrames then 1
       else 0) :=
  segmentation_emission cexCfg 3 2 (by decide) (by decide) (by decide)
    (by decide) (by decide)

/-- C6: under the acceptance-scenario configuration (hop 512,
minSpeechFrames 2, maxSilenceFrames 2), feeding 3 speech hops followed by
3 silence hops emits exactly one segment of 5 * 512 = 2560 samples. -/
theorem scenario_one_segment :
    ((processFrames scenCfg tenInit (speechThenSilence scenCfg 3 3)).2.map
        List.length) = [5 * 512] := by
  rw [speechThenSilence_run scenCfg 3 3 (by decide) (by decide) (by decide)
    (by decide) (by decide)]
  norm_num [scenCfg]

/-! ## Pool invariant: mutual exclusion of leases -/

theorem singleton_add_erase (i : Nat) (b : Multiset Nat) (hi : i ∈ b) :
    ({i} : Multiset Nat) + b.erase i = b := by
  rw [Multiset.singleton_add, Multiset.cons_erase hi]

theorem held_le_occm (s : PoolState) : ((s.held : Multiset Nat)) ≤ occm s := by
  simp only [occm]
  calc ((s.held : Multiset Nat))
      ≤ (s.available : Multiset Nat) + (s.pendingGet : Multiset Nat)
          + (s.held : Multiset Nat) := Multiset.le_add_left _ _
    _ ≤ (s.available : Multiset Nat) + (s.pendingGet : Multiset Nat)
          + (s.held : Multiset Nat) + (s.returning : Multiset Nat) :=
        Multiset.le_add_right _ _

theorem poolInv_init (N : Nat) : PoolInv (initPool N) := by
  refine ⟨?_, ?_, ?_⟩
  · simp [occm, initPool, List.nodup_range]
  · intro i
    simp [initPool]
  · intro i hi
    simp only [occm, initPool] at hi
    simp only [Multiset.mem_add, Multiset.mem_coe, List.mem_range,
      List.not_mem_nil, or_false] at hi
    simpa [initPool] using hi

theorem poolInv_step {N : Nat} {s : PoolState} {l : PLabel} {s' : PoolState}
    (hinv : PoolInv s) (hstep : PStep N s l s') : PoolInv s' := by
  obtain ⟨hnd, hflagIff, hbound⟩ := hinv
  cases hstep with
  | pop i rest h =>
    have hocc :
        occm { s with available := rest, pendingGet := i :: s.pendingGet }
          = occm s := by
      simp only [occm, h, ← Multiset.cons_coe, ← Multiset.singleton_add]
      abel
    exact ⟨hocc ▸ hnd, hflagIff, fun j hj => hbound j (hocc ▸ hj)⟩
  | handout i hmem hflag =>
    have hi : i ∈ (s.pendingGet : Multiset Nat) := Multiset.mem_coe.mpr hmem
    have hp : ({i} : Multiset Nat) + (s.pendingGet : Multiset Nat).erase i
        = (s.pendingGet : Multiset Nat) := singleton_add_erase i _ hi
    have hocc :
        occm { s with inUse := fun j => if j = i then true else s.inUse j, pendingGet := s.pendingGet.erase i, held := i :: s.held }
          = occm s := by
      simp only [occm, ← Multiset.coe_erase, ← Multiset.cons_coe,
        ← Multiset.singleton_add]
      conv_rhs => rw [← hp]
      abel
    refine ⟨hocc ▸ hnd, ?_, fun j hj => hbound j (hocc ▸ hj)⟩
    intro j
    by_cases hj : j = i
    · subst hj
      simp
    · simp only [hj, if_false, List.mem_cons]
      rw [hflagIff j]
      simp [hj]
  | requeue i hmem hflag =>
    exfalso
    have hheld : i ∈ s.held := (hflagIff i).mp hflag
    have h1 : 1 ≤ Multiset.count i (s.pendingGet : Multiset Nat) :=
      Multiset.one_le_count_iff_mem.mpr (Multiset.mem_coe.mpr hmem)
    have h2 : 1 ≤ Multiset.count i (s.held : Multiset Nat) :=
      Multiset.one_le_count_iff_mem.mpr (Multiset.mem_coe.mpr hheld)
    have hcnt := Multiset.nodup_iff_count_le_one.mp hnd i
    simp only [occm, Multiset.count_add] at hcnt
    omega
  | temp =>
    have hocc :
        occm { s with inUse := fun j => if j = s.nextTemp then true else s.inUse j, held := s.nextTemp :: s.held, nextTemp := s.nextTemp + 1 }
          = ({s.nextTemp} : Multiset Nat) + occm s := by
      simp only [occm, ← Multiset.cons_coe, ← Multiset.singleton_add]
      abel
    have hnotmem : s.nextTemp ∉ occm s := fun hmem =>
      absurd (hbound s.nextTemp hmem) (lt_irrefl s.nextTemp)
    refine ⟨?_, ?_, ?_⟩
    · rw [hocc, Multiset.singleton_add]
      exact Multiset.nodup_cons.mpr ⟨hnotmem, hnd⟩
    · intro j
      by_cases hj : j = s.nextTemp
      · subst hj
        simp
      · simp only [hj, if_false, List.mem_cons]
        rw [hflagIff j]
        simp [hj]
    · intro j hj
      rw [hocc, Multiset.singleton_add, Multiset.mem_cons] at hj
      show j < s.nextTemp + 1
      rcases hj with hj | hj
      · omega
      · have := hbound j hj
        omega
  | putCas i hmem hflag =>
    have hi : i ∈ (s.held : Multiset Nat) := Multiset.mem_coe.mpr hmem
    have hp : ({i} : Multiset Nat) + (s.held : Multiset Nat).erase i
        = (s.held : Multiset Nat) := singleton_add_erase i _ hi
    have hocc :
        occm { s with inUse := fun j => if j = i then false else s.inUse j, held := s.held.erase i, returning := i :: s.returning }
          = occm s := by
      simp only [occm, ← Multiset.coe_erase, ← Multiset.cons_coe,
        ← Multiset.singleton_add]
      conv_rhs => rw [← hp]
      abel
    have hheldnd : s.held.Nodup :=
      Multiset.coe_nodup.mp (Multiset.nodup_of_le (held_le_occm s) hnd)
    refine ⟨hocc ▸ hnd, ?_, fun j hj => hbound j (hocc ▸ hj)⟩
    intro j
    by_cases hj : j = i
    · subst hj
      simp only [if_pos rfl]
      constructor
      · intro hfalse
        exact absurd hfalse (by simp)
      · intro hjj
        exact absurd ((hheldnd.mem_erase_iff).mp hjj).1 (by simp)
    · simp only [hj, if_false]
      rw [hflagIff j, List.mem_erase_of_ne hj]
  | putPush i hmem hroom =>
    have hi : i ∈ (s.returning : Multiset Nat) := Multiset.mem_coe.mpr hmem
    have hp : ({i} : Multiset Nat) + (s.returning : Multiset Nat).erase i
        = (s.returning : Multiset Nat) := singleton_add_erase i _ hi
    have hocc :
        occm { s with returning := s.returning.erase i, available := s.available ++ [i] }
          = occm s := by
      simp only [occm, ← Multiset.coe_erase, ← Multiset.coe_add,
        ← Multiset.cons_coe, ← Multiset.singleton_add]
      conv_rhs => rw [← hp]
      simp only [Multiset.coe_nil, add_zero]
      abel
    exact ⟨hocc ▸ hnd, hflagIff, fun j hj => hbound j (hocc ▸ hj)⟩
  | putDestroy i hmem hfull =>
    have hle : occm { s with returning := s.returning.erase i } ≤ occm s := by
      simp only [occm, ← Multiset.coe_erase]
      exact add_le_add le_rfl (Multiset.erase_le _ _)
    exact ⟨Multiset.nodup_of_le hle hnd, hflagIff,
      fun j hj => hbound j (Multiset.mem_of_le hle hj)⟩

theorem poolInv_reachable {N : Nat} {s : PoolState}
    (hr : PoolReachable N s) : PoolInv s := by
  induction hr with
  | init => exact poolInv_init N
  | step _ hstep ih => exact poolInv_step ih hstep

/-- C1: mutual exclusion.  In every pool state reachable by an arbitrary
interleaving of Get/Put actions, an instance about to be handed out (by
the successful compare-and-swap of a tracked instance, or by temporary
creation) has its leased flag at 0 before the step and at 1 after it, no
instance is ever leased to two holders at once, and at most N
non-temporary instances are marked leased (each holder entry occurs at
most once, and the tracked ids form a subset of 0..N-1). -/
theorem pool_no_double_lease {N : Nat} {s s' : PoolState} {i : Nat}
    (hr : PoolReachable N s)
    (hstep : PStep N s (PLabel.handout i) s'
      ∨ PStep N s (PLabel.temp i) s') :
    s.inUse i = false ∧ s'.inUse i = true ∧
      (∀ j, s.held.count j ≤ 1) ∧
      ((Finset.range N).filter (fun j => s.inUse j = true)).card ≤ N := by
  obtain ⟨hnd, hflagIff, hbound⟩ := poolInv_reachable hr
  have hcount : ∀ j, s.held.count j ≤ 1 := by
    intro j
    have h1 := Multiset.nodup_iff_count_le_one.mp hnd j
    have h2 : Multiset.count j (s.held : Multiset Nat)
        ≤ Multiset.count j (occm s) :=
      Multiset.count_le_of_le j (held_le_occm s)
    rw [Multiset.coe_count] at h2
    omega
  have hcard : ((Finset.range N).filter
      (fun j => s.inUse j = true)).card ≤ N :=
    le_trans (Finset.card_filter_le _ _) (by simp)
  rcases hstep with hstep | hstep
  · cases hstep with
    | handout i2 hmem hflag =>
      exact ⟨hflag, by simp, hcount, hcard⟩
  · cases hstep with
    | temp =>
      have hfalse : s.inUse s.nextTemp = false := by
        by_contra hcon
        have htrue : s.inUse s.nextTemp = true := by
          revert hcon
          cases s.inUse s.nextTemp <;> simp
        have hmem : s.nextTemp ∈ s.held := (hflagIff _).mp htrue
        have hx : s.nextTemp ∈ occm s :=
          Multiset.mem_of_le (held_le_occm s) (Multiset.mem_coe.mpr hmem)
        exact absurd (hbound _ hx) (lt_irrefl _)
      exact ⟨hfalse, by simp, hcount, hcard⟩

theorem poolS1_reachable : PoolReachable 1 poolS1 := by
  have h : poolS1 = { initPool 1 with available := [], pendingGet := 0 :: (initPool 1).pendingGet } := by
    rfl
  rw [h]
  exact PoolReachable.step PoolReachable.init
    (PStep.pop (initPool 1) 0 [] (by decide))

theorem handoutStep01 : PStep 1 poolS1 (PLabel.handout 0) poolS2 := by
  have h : poolS2 = { poolS1 with inUse := fun j => if j = 0 then true else poolS1.inUse j, pendingGet := poolS1.pendingGet.erase 0, held := 0 :: poolS1.held } := by
    rfl
  rw [h]
  exact PStep.handout poolS1 0 (by simp [poolS1]) rfl

/-- Witness for C1 on a concrete pool of size 1: from the reachable state
just after the pop, handing out instance 0 flips its flag from 0 to 1. -/
theorem pool_no_double_lease_witness :
    poolS1.inUse 0 = false ∧ poolS2.inUse 0 = true ∧
      (∀ j, poolS1.held.count j ≤ 1) ∧
      ((Finset.range 1).filter (fun j => poolS1.inUse j = true)).card ≤ 1 :=
  pool_no_double_lease poolS1_reachable (Or.inl handoutStep01)

end AsrServer
